import Mathlib

/-!
A shallow embedding of the DataPantry client library (`src/index.ts`): the
condition builders (`eq`, `ne`, `gt`, `gte`, `lt`, `lte`, `like`, `inArray`),
the four statement builders (Select / Insert / Update / Delete) with their
chainable clause methods, the terminal operations `first` and `count`, and
the schema normalizer's type and constraint mapping.

Modelling decisions:
* JavaScript strings are modelled by `String`; the positional parameter
  list `this.params` by `List Value`; a result row (plain object with
  insertion-ordered keys) by `List (String × Value)`.
* A JavaScript scalar is `Value`: an integer, a string, or `undefined`
  (reading an absent object property yields `undefined`).
* The abstract Executor collaborator (`execute(sqlText, params) -> rows`)
  is a function `String → List Value → List Row`; the HTTP transport is
  out of scope, so execution-style methods take the executor explicitly.
* `String.prototype.includes(pat)` is modelled by a positive occurrence
  count of `pat`; `Array.prototype.join(sep)` by `joinWith`.
* `SelectQueryBuilder.where`, `UpdateQueryBuilder.where` and
  `DeleteQueryBuilder.where` (and likewise `orWhere`) are textually
  identical in the source, so a single `Stmt.whereCl` / `Stmt.orWhereCl`
  embeds all three.
-/

namespace DataPantry

/-- A JavaScript scalar value as it appears in bound-parameter lists and
result rows: an integer, a string, or `undefined`. -/
inductive Value where
  | vInt : Int → Value
  | vStr : String → Value
  | undef : Value
deriving DecidableEq

/-- A result row / plain JavaScript object: an association list of
properties in key-insertion order (the order `Object.keys` enumerates). -/
abbrev Row : Type := List (String × Value)

/-- Property read `row[col]`: the first binding of the key, or `undefined`
when the key is absent. -/
def rowGet (row : Row) (col : String) : Value :=
  match row.find? (fun p => p.1 == col) with
  | some p => p.2
  | none => Value.undef

/-- Number of occurrences (counted by starting position, overlaps allowed)
of `pat` as a contiguous substring of `l`. -/
def countOcc (pat : List Char) : List Char → Nat
  | [] => 0
  | c :: rest => (if pat.isPrefixOf (c :: rest) then 1 else 0) + countOcc pat rest

/-- JavaScript `s.includes(pat)` for a non-empty search string `pat`:
true exactly when `pat` occurs somewhere in `s`. -/
def strIncludes (s pat : String) : Bool :=
  decide (0 < countOcc pat.data s.data)

/-- JavaScript `Array.prototype.join(sep)`. -/
def joinWith (sep : String) : List String → String
  | [] => ""
  | [s] => s
  | s :: t :: rest => s ++ sep ++ joinWith sep (t :: rest)

/-- A `WhereCondition` (index.ts 299-302): an SQL predicate fragment with
its bound values. -/
structure WhereCondition where
  sql : String
  params : List Value
deriving DecidableEq

/-- `eq(column, value)` (index.ts 304-306). -/
def eq (column : String) (value : Value) : WhereCondition :=
  { sql := "\"" ++ column ++ "\" = ?", params := [value] }

/-- `ne(column, value)` (index.ts 308-310). -/
def ne (column : String) (value : Value) : WhereCondition :=
  { sql := "\"" ++ column ++ "\" != ?", params := [value] }

/-- `gt(column, value)` (index.ts 312-314). -/
def gt (column : String) (value : Value) : WhereCondition :=
  { sql := "\"" ++ column ++ "\" > ?", params := [value] }

/-- `gte(column, value)` (index.ts 316-318). -/
def gte (column : String) (value : Value) : WhereCondition :=
  { sql := "\"" ++ column ++ "\" >= ?", params := [value] }

/-- `lt(column, value)` (index.ts 320-322). -/
def lt (column : String) (value : Value) : WhereCondition :=
  { sql := "\"" ++ column ++ "\" < ?", params := [value] }

/-- `lte(column, value)` (index.ts 324-326). -/
def lte (column : String) (value : Value) : WhereCondition :=
  { sql := "\"" ++ column ++ "\" <= ?", params := [value] }

/-- `like(column, pattern)` (index.ts 328-330). -/
def like (column : String) (pat : String) : WhereCondition :=
  { sql := "\"" ++ column ++ "\" LIKE ?", params := [Value.vStr pat] }

/-- `inArray(column, values)` (index.ts 332-335): one `?` per element,
joined with `", "`. -/
def inArray (column : String) (values : List Value) : WhereCondition :=
  { sql := "\"" ++ column ++ "\" IN (" ++ joinWith ", " (values.map fun _ => "?") ++ ")",
    params := values }

/-- Accumulator state shared by the Select / Update / Delete builders:
`this.query` and `this.params` of the `QueryBuilder` base class
(index.ts 97-122). -/
structure Stmt where
  query : String
  params : List Value
deriving DecidableEq

/-- The `SelectQueryBuilder` constructor (index.ts 126-130):
`SELECT *` when no columns are given, else `SELECT` of the comma-joined
column list. -/
def select (columns : List String) : Stmt :=
  { query := "SELECT " ++ (if columns.length == 0 then "*" else joinWith ", " columns),
    params := [] }

/-- `from(table)` of the Select builder (index.ts 132-135) and of the
Delete builder (index.ts 272-275); both append `FROM "table"`. -/
def Stmt.fromTable (st : Stmt) (table : String) : Stmt :=
  { st with query := st.query ++ " FROM \"" ++ table ++ "\"" }

/-- `where(condition)` (index.ts 137-145, identically 244-252, 277-285):
append `AND cond` when the accumulated text already contains `WHERE`,
else `WHERE cond`; always append the condition's bound values. -/
def Stmt.whereCl (st : Stmt) (condition : WhereCondition) : Stmt :=
  if strIncludes st.query "WHERE" then
    { query := st.query ++ " AND " ++ condition.sql,
      params := st.params ++ condition.params }
  else
    { query := st.query ++ " WHERE " ++ condition.sql,
      params := st.params ++ condition.params }

/-- `orWhere(condition)` (index.ts 147-155, identically 254-262, 287-295). -/
def Stmt.orWhereCl (st : Stmt) (condition : WhereCondition) : Stmt :=
  if strIncludes st.query "WHERE" then
    { query := st.query ++ " OR " ++ condition.sql,
      params := st.params ++ condition.params }
  else
    { query := st.query ++ " WHERE " ++ condition.sql,
      params := st.params ++ condition.params }

/-- The `'ASC' | 'DESC'` direction union type of `orderBy`. -/
inductive SQLDir where
  | asc
  | desc
deriving DecidableEq

def SQLDir.render : SQLDir → String
  | .asc => "ASC"
  | .desc => "DESC"

/-- `orderBy(column, direction)` (index.ts 157-160). -/
def Stmt.orderBy (st : Stmt) (column : String) (direction : SQLDir) : Stmt :=
  { st with query := st.query ++ " ORDER BY \"" ++ column ++ "\" " ++ direction.render }

/-- `limit(n)` (index.ts 162-165): the number is interpolated directly
into the text (a JavaScript template literal); modelled for naturals by
decimal rendering. -/
def Stmt.limit (st : Stmt) (n : Nat) : Stmt :=
  { st with query := st.query ++ " LIMIT " ++ Nat.repr n }

/-- `offset(n)` (index.ts 167-170). -/
def Stmt.offset (st : Stmt) (n : Nat) : Stmt :=
  { st with query := st.query ++ " OFFSET " ++ Nat.repr n }

/-- `join(table, condition)` (index.ts 172-175). -/
def Stmt.join (st : Stmt) (table condition : String) : Stmt :=
  { st with query := st.query ++ " INNER JOIN \"" ++ table ++ "\" ON " ++ condition }

/-- `leftJoin(table, condition)` (index.ts 177-180). -/
def Stmt.leftJoin (st : Stmt) (table condition : String) : Stmt :=
  { st with query := st.query ++ " LEFT JOIN \"" ++ table ++ "\" ON " ++ condition }

/-- `set(data)` of the Update builder (index.ts 236-242): append
`SET "k" = ?, …` over the keys in iteration order and push each value. -/
def Stmt.set (st : Stmt) (data : Row) : Stmt :=
  let columns := data.map Prod.fst
  { st with
    query := st.query ++ " SET " ++
      joinWith ", " (columns.map fun col => "\"" ++ col ++ "\" = ?"),
    params := st.params ++ columns.map fun col => rowGet data col }

/-- The `UpdateQueryBuilder` constructor (index.ts 230-234). -/
def update (table : String) : Stmt :=
  { query := "UPDATE \"" ++ table ++ "\"", params := [] }

/-- The `DeleteQueryBuilder` constructor (index.ts 267-270). -/
def delete : Stmt :=
  { query := "DELETE", params := [] }

/-- Accumulator state of the `InsertQueryBuilder` (index.ts 196-202): the
remembered table name plus the inherited `query` / `params` fields
(`query` starts as the empty string from the base class). -/
structure InsStmt where
  table : String
  query : String
  params : List Value
deriving DecidableEq

/-- The `InsertQueryBuilder` constructor (index.ts 199-202). -/
def insert (table : String) : InsStmt :=
  { table := table, query := "", params := [] }

/-- `values(data)` (index.ts 204-223).  The source accepts a single object
or an array (`Array.isArray(data) ? data : [data]`); a caller passing one
object corresponds to passing a singleton list here.  The column list is
`Object.keys(rows[0])`; one `(?, …)` group is emitted per row; `query` is
overwritten (`this.query = …`) while the values are appended
(`this.params.push(…)`) row-major. -/
def InsStmt.values (st : InsStmt) (data : List Row) : InsStmt :=
  let rows := data
  let columns := (rows.headD []).map Prod.fst
  let columnNames := joinWith ", " (columns.map fun col => "\"" ++ col ++ "\"")
  let valuePlaceholders :=
    joinWith ", " (rows.map fun _ => "(" ++ joinWith ", " (columns.map fun _ => "?") ++ ")")
  { st with
    query := "INSERT INTO \"" ++ st.table ++ "\" (" ++ columnNames ++ ") VALUES " ++
      valuePlaceholders,
    params := st.params ++ (rows.map fun row => columns.map fun col => rowGet row col).flatten }

/-- The abstract Executor collaborator: `execute(sqlText, params) -> rows`
(spec §2 / §6).  The reference implementation is the HTTP transport
`DataPantryDatabase.sql` (index.ts 12-29), out of scope here. -/
abbrev Executor : Type := String → List Value → List Row

/-- `first()` (index.ts 182-185): execute, then `results[0] || null`.
A result row is a JavaScript object and hence truthy, so this is the head
of the result sequence when non-empty and `null` (here `none`) otherwise. -/
def first (ex : Executor) (st : Stmt) : Option Row :=
  match ex st.query st.params with
  | [] => none
  | r :: _ => some r

/-! Model of the JavaScript regex replacement in `count()` (index.ts 189):
`this.query.replace(/SELECT .* FROM/, 'SELECT COUNT(*) as count FROM')`.
A non-global `replace` rewrites only the leftmost match; the greedy `.*`
extends the match to the last ` FROM` reachable from the `SELECT ` head
through a gap containing no line terminator (without the `s` flag, `.`
matches any character except LF, CR, LINE SEPARATOR and PARAGRAPH
SEPARATOR).  If the regex does not match at all, `replace` returns the
string unchanged. -/

/-- A JavaScript line terminator: the characters the regex `.` does not
match (LF, CR, U+2028 LINE SEPARATOR, U+2029 PARAGRAPH SEPARATOR). -/
def isLineTerm (c : Char) : Bool :=
  c == '\n' || c == '\r' || c == '\u2028' || c == '\u2029'

/-- The characters of `s` at positions `i ≤ k < j` — the span the regex
gap `.*` has to cross — are all matchable by `.`. -/
def gapOk (s : List Char) (i j : Nat) : Bool :=
  ((s.drop i).take (j - i)).all fun c => ! isLineTerm c

/-- The literal head `SELECT ` of the regex (7 characters). -/
def selPat : List Char := "SELECT ".data

/-- The literal tail ` FROM` of the regex (5 characters). -/
def fromPat : List Char := " FROM".data

/-- `pat` occurs in `s` starting at index `i`. -/
def occursAt (pat s : List Char) (i : Nat) : Bool :=
  pat.isPrefixOf (s.drop i)

/-- Leftmost index where the whole regex `SELECT .* FROM` can match:
`SELECT ` occurs there and some ` FROM` starts at least 7 characters
later, with the intervening gap free of line terminators (which `.`
cannot match). -/
def matchStart (s : List Char) : Option Nat :=
  (List.range (s.length + 1)).find? fun p =>
    occursAt selPat s p &&
      (List.range (s.length + 1)).any fun q =>
        decide (p + 7 ≤ q) && occursAt fromPat s q && gapOk s (p + 7) q

/-- Greedy end for a match starting at `p`: the last index at least
`p + 7` where ` FROM` occurs with a line-terminator-free gap before it. -/
def matchEnd (s : List Char) (p : Nat) : Option Nat :=
  ((List.range (s.length + 1)).filter fun q =>
      decide (p + 7 ≤ q) && occursAt fromPat s q && gapOk s (p + 7) q).getLast?

/-- `s.replace(/SELECT .* FROM/, 'SELECT COUNT(*) as count FROM')`:
replace the leftmost greedy match, or return `s` unchanged when the regex
does not match. -/
def replaceSelectFrom (s : List Char) : List Char :=
  match matchStart s with
  | none => s
  | some p =>
    match matchEnd s p with
    | none => s
    | some q => s.take p ++ "SELECT COUNT(*) as count FROM".data ++ s.drop (q + 5)

/-- The derived COUNT statement text built by `count()` (index.ts 189). -/
def Stmt.countQueryOf (st : Stmt) : String :=
  String.mk (replaceSelectFrom st.query.data)

/-- `count()` (index.ts 187-192): execute the derived COUNT text with the
accumulated parameters and return `result[0].count`.  (On an empty result
sequence the JavaScript would throw a `TypeError` reading `.count` of
`undefined`; that dead-end is modelled by `none`.) -/
def count (ex : Executor) (st : Stmt) : Option Value :=
  match ex st.countQueryOf st.params with
  | [] => none
  | row :: _ => some (rowGet row "count")

/-- JavaScript `String.prototype.toUpperCase`, which agrees with
character-wise `Char.toUpper` on the ASCII type names the catalog
produces. -/
def jsToUpper (s : String) : String :=
  String.mk (s.data.map Char.toUpper)

/-- `mapSQLiteType` of the Schema Normalizer (index.ts 60-66): uppercase
the remote type name, then map anything containing `INT` or equal to
`REAL` to `number`, everything else (the explicit `TEXT` arm included) to
`string`. -/
def mapSQLiteType (sqliteType : String) : String :=
  let upper := jsToUpper sqliteType
  if strIncludes upper "INT" then "number"
  else if upper == "REAL" then "number"
  else if upper == "TEXT" then "string"
  else "string"

/-- One row of `PRAGMA table_info`: the fields the normalizer reads.
`notnull` is 0 or 1; `pk` is 0 for non-key columns and positive (the
position within the primary key) otherwise. -/
structure CatalogColumn where
  name : String
  type : String
  notnull : Nat
  pk : Nat
deriving DecidableEq

/-- The constraint chosen by `schema()` for one column (index.ts 48):
`col.pk ? 'primary' : (col.notnull ? 'unique' : 'none')`, with JavaScript
number truthiness (0 is falsy). -/
def columnConstraint (col : CatalogColumn) : String :=
  if col.pk ≠ 0 then "primary"
  else if col.notnull ≠ 0 then "unique"
  else "none"

/-! ### Counting machinery

Lemmas about `countOcc`, `joinWith` and `?`-placeholder counts used to
settle the claims.  The key structural fact: every clause fragment the
builders append starts with a space, and neither `WHERE` nor `?` contains
a space, so occurrence counts split at the spaces. -/

/-- Bridge between the executable `isPrefixOf` and the prefix order. -/
theorem isPrefixOf_eq_true_iff (l1 l2 : List Char) :
    l1.isPrefixOf l2 = true ↔ l1 <+: l2 :=
  List.isPrefixOf_iff_prefix

/-- `l.take n` is an initial segment of `l`. -/
theorem take_isInitial {α : Type} (n : Nat) (l : List α) : l.take n <+: l :=
  List.take_prefix n l

theorem isPrefixOf_space_cons (pat : List Char) (hp : pat ≠ []) (hsp : ' ' ∉ pat)
    (b : List Char) : pat.isPrefixOf (' ' :: b) = false := by
  rw [Bool.eq_false_iff]
  intro h
  have hpre : pat <+: ' ' :: b := (isPrefixOf_eq_true_iff _ _).mp h
  cases pat with
  | nil => exact hp rfl
  | cons p ps =>
    obtain ⟨t, ht⟩ := hpre
    rw [List.cons_append] at ht
    have hph : p = ' ' := (List.cons.injEq _ _ _ _ ▸ ht).1
    exact hsp (hph ▸ List.mem_cons_self p ps)

theorem isPrefixOf_append_space (pat x y : List Char) (hsp : ' ' ∉ pat) :
    pat.isPrefixOf (x ++ ' ' :: y) = pat.isPrefixOf x := by
  by_cases h : pat <+: x
  · rw [(isPrefixOf_eq_true_iff _ _).mpr h,
      (isPrefixOf_eq_true_iff _ _).mpr (h.trans (List.prefix_append x (' ' :: y)))]
  · have h1 : pat.isPrefixOf x = false := by
      rw [Bool.eq_false_iff]
      exact fun hh => h ((isPrefixOf_eq_true_iff _ _).mp hh)
    have h2 : pat.isPrefixOf (x ++ ' ' :: y) = false := by
      rw [Bool.eq_false_iff]
      intro hh
      have hpre := (isPrefixOf_eq_true_iff _ _).mp hh
      rcases le_or_lt pat.length x.length with hle | hlt
      · have htake := List.prefix_iff_eq_take.mp hpre
        rw [List.take_append_of_le_length hle] at htake
        exact h (htake ▸ take_isInitial _ _)
      · have htake := List.prefix_iff_eq_take.mp hpre
        rw [List.take_append_eq_append_take] at htake
        obtain ⟨k, hk⟩ : ∃ k, pat.length - x.length = k + 1 :=
          ⟨pat.length - x.length - 1, by omega⟩
        rw [hk, List.take_succ_cons] at htake
        apply hsp
        rw [htake]
        exact List.mem_append_right _ (List.mem_cons_self _ _)
    rw [h1, h2]

theorem countOcc_append_space (pat : List Char) (hp : pat ≠ []) (hsp : ' ' ∉ pat) :
    ∀ a b : List Char, countOcc pat (a ++ ' ' :: b) = countOcc pat a + countOcc pat b := by
  intro a
  induction a with
  | nil =>
    intro b
    simp [countOcc, isPrefixOf_space_cons pat hp hsp b]
  | cons c a ih =>
    intro b
    rw [List.cons_append]
    simp only [countOcc]
    rw [show c :: (a ++ ' ' :: b) = (c :: a) ++ ' ' :: b from rfl,
      isPrefixOf_append_space pat (c :: a) b hsp, ih b]
    omega

theorem countOcc_space_block (pat a mid b : List Char) (hp : pat ≠ []) (hsp : ' ' ∉ pat) :
    countOcc pat (a ++ ' ' :: (mid ++ ' ' :: b))
      = countOcc pat a + countOcc pat mid + countOcc pat b := by
  rw [countOcc_append_space pat hp hsp a, countOcc_append_space pat hp hsp mid, Nat.add_assoc]

theorem strIncludes_iff (s pat : String) :
    strIncludes s pat = true ↔ 0 < countOcc pat.data s.data := by
  simp [strIncludes]

/-- Occurrences of `WHERE` split across an appended ` AND ` fragment. -/
theorem countOcc_and_sep (q s : String) :
    countOcc "WHERE".data (q ++ " AND " ++ s).data
      = countOcc "WHERE".data q.data + countOcc "WHERE".data s.data := by
  have h : (q ++ " AND " ++ s).data
      = q.data ++ ' ' :: (['A', 'N', 'D'] ++ ' ' :: s.data) := by
    simp only [String.data_append, List.append_assoc]
    rfl
  rw [h, countOcc_space_block _ _ _ _ (by decide) (by decide)]
  have hz : countOcc "WHERE".data ['A', 'N', 'D'] = 0 := by decide
  omega

/-- Occurrences of `WHERE` split across an appended ` OR ` fragment. -/
theorem countOcc_or_sep (q s : String) :
    countOcc "WHERE".data (q ++ " OR " ++ s).data
      = countOcc "WHERE".data q.data + countOcc "WHERE".data s.data := by
  have h : (q ++ " OR " ++ s).data
      = q.data ++ ' ' :: (['O', 'R'] ++ ' ' :: s.data) := by
    simp only [String.data_append, List.append_assoc]
    rfl
  rw [h, countOcc_space_block _ _ _ _ (by decide) (by decide)]
  have hz : countOcc "WHERE".data ['O', 'R'] = 0 := by decide
  omega

/-- Appending ` WHERE cond` adds exactly one `WHERE` occurrence beyond
those of the two sides. -/
theorem countOcc_where_sep (q s : String) :
    countOcc "WHERE".data (q ++ " WHERE " ++ s).data
      = countOcc "WHERE".data q.data + 1 + countOcc "WHERE".data s.data := by
  have h : (q ++ " WHERE " ++ s).data
      = q.data ++ ' ' :: (['W', 'H', 'E', 'R', 'E'] ++ ' ' :: s.data) := by
    simp only [String.data_append, List.append_assoc]
    rfl
  rw [h, countOcc_space_block _ _ _ _ (by decide) (by decide)]
  have ho : countOcc "WHERE".data ['W', 'H', 'E', 'R', 'E'] = 1 := by decide
  omega

/-- Number of `?` placeholders in a piece of SQL text. -/
def qmarks (s : String) : Nat := s.data.count '?'

theorem qmarks_append (s t : String) : qmarks (s ++ t) = qmarks s + qmarks t := by
  simp [qmarks, String.data_append]

theorem qmarks_of_not_mem (s : String) (h : '?' ∉ s.data) : qmarks s = 0 :=
  List.count_eq_zero.mpr h

theorem joinWith_count (ch : Char) (sep : String) (hsep : sep.data.count ch = 0) :
    ∀ l : List String, (joinWith sep l).data.count ch = (l.map fun s => s.data.count ch).sum := by
  intro l
  induction l with
  | nil => simp [joinWith]
  | cons s rest ih =>
    cases rest with
    | nil => simp [joinWith]
    | cons t r =>
      have hstep : joinWith sep (s :: t :: r) = s ++ sep ++ joinWith sep (t :: r) := rfl
      rw [hstep]
      simp only [String.data_append, List.count_append]
      rw [hsep, ih]
      simp only [List.map_cons, List.sum_cons]
      omega

theorem sum_map_one {α : Type} : ∀ l : List α, (l.map fun _ => (1 : Nat)).sum = l.length
  | [] => rfl
  | x :: xs => by
    simp only [List.map_cons, List.sum_cons, List.length_cons, sum_map_one xs]
    omega

/-- A `", "`-joined list of `?` placeholders holds one `?` per element. -/
theorem joinWith_placeholders {α : Type} (l : List α) :
    qmarks (joinWith ", " (l.map fun _ => "?")) = l.length := by
  rw [qmarks, joinWith_count '?' ", " (by decide), List.map_map]
  have h1 : ((fun s : String => s.data.count '?') ∘ fun _ : α => "?")
      = fun _ : α => (1 : Nat) := by
    funext x
    simp only [Function.comp_apply]
    decide
  rw [h1, sum_map_one]

theorem joinWith_qmarks_zero (l : List String) (h : ∀ s ∈ l, qmarks s = 0) :
    qmarks (joinWith ", " l) = 0 := by
  rw [qmarks, joinWith_count '?' ", " (by decide)]
  apply List.sum_eq_zero
  intro x hx
  simp only [List.mem_map] at hx
  obtain ⟨s, hs, rfl⟩ := hx
  exact h s hs

theorem joinWith_qmarks_each_one (l : List String) (h : ∀ s ∈ l, qmarks s = 1) :
    qmarks (joinWith ", " l) = l.length := by
  rw [qmarks, joinWith_count '?' ", " (by decide)]
  have h1 : l.map (fun s => s.data.count '?') = l.map fun _ => (1 : Nat) :=
    List.map_congr_left fun s hs => h s hs
  rw [h1, sum_map_one]

theorem digitChar_ge16 (k : Nat) (h : 16 ≤ k) : Nat.digitChar k = '*' := by
  rw [Nat.digitChar.eq_def]
  rw [if_neg (by omega : ¬(k = 0)), if_neg (by omega : ¬(k = 1)),
    if_neg (by omega : ¬(k = 2)), if_neg (by omega : ¬(k = 3)),
    if_neg (by omega : ¬(k = 4)), if_neg (by omega : ¬(k = 5)),
    if_neg (by omega : ¬(k = 6)), if_neg (by omega : ¬(k = 7)),
    if_neg (by omega : ¬(k = 8)), if_neg (by omega : ¬(k = 9)),
    if_neg (by omega : ¬(k = 0xa)), if_neg (by omega : ¬(k = 0xb)),
    if_neg (by omega : ¬(k = 0xc)), if_neg (by omega : ¬(k = 0xd)),
    if_neg (by omega : ¬(k = 0xe)), if_neg (by omega : ¬(k = 0xf))]

theorem digitChar_ne_qmark (k : Nat) : Nat.digitChar k ≠ '?' := by
  rcases Nat.lt_or_ge k 16 with h | h
  · exact (by decide : ∀ m < 16, Nat.digitChar m ≠ '?') k h
  · rw [digitChar_ge16 k h]
    decide

theorem toDigitsCore_mem (b : Nat) : ∀ (fuel n : Nat) (ds : List Char) (c : Char),
    c ∈ Nat.toDigitsCore b fuel n ds → c ∈ ds ∨ ∃ k, c = Nat.digitChar k := by
  intro fuel
  induction fuel with
  | zero =>
    intro n ds c h
    simp only [Nat.toDigitsCore] at h
    exact Or.inl h
  | succ fuel ih =>
    intro n ds c h
    simp only [Nat.toDigitsCore] at h
    split at h
    · rcases List.mem_cons.mp h with h1 | h1
      · exact Or.inr ⟨n % b, h1⟩
      · exact Or.inl h1
    · rcases ih _ _ _ h with h1 | h1
      · rcases List.mem_cons.mp h1 with h2 | h2
        · exact Or.inr ⟨n % b, h2⟩
        · exact Or.inl h2
      · exact Or.inr h1

/-- Decimal rendering of a natural number never contains `?` (so the
interpolations in `limit` / `offset` add no placeholder). -/
theorem repr_no_qmark (n : Nat) : '?' ∉ (Nat.repr n).data := by
  intro h
  have h2 : '?' ∈ Nat.toDigits 10 n := h
  rcases toDigitsCore_mem 10 (n + 1) n [] '?' h2 with h3 | ⟨k, h3⟩
  · simp at h3
  · exact digitChar_ne_qmark k h3.symm

theorem qmarks_repr (n : Nat) : qmarks (Nat.repr n) = 0 :=
  List.count_eq_zero.mpr (repr_no_qmark n)

theorem sum_const {α : Type} (K : Nat) : ∀ l : List α, (l.map fun _ => K).sum = l.length * K
  | [] => by simp
  | x :: xs => by
    simp only [List.map_cons, List.sum_cons, List.length_cons, sum_const K xs, Nat.succ_mul]
    omega

theorem qmarks_quoted_col (col : String) (h : '?' ∉ col.data) :
    qmarks ("\"" ++ col ++ "\"") = 0 := by
  rw [qmarks_append, qmarks_append, qmarks_of_not_mem col h]
  decide

theorem qmarks_set_pair (col : String) (h : '?' ∉ col.data) :
    qmarks ("\"" ++ col ++ "\" = ?") = 1 := by
  rw [qmarks_append, qmarks_append, qmarks_of_not_mem col h]
  decide

/-- One `(?, …)` placeholder group of `values` holds one `?` per column. -/
theorem qmarks_group (columns : List String) :
    qmarks ("(" ++ joinWith ", " (columns.map fun _ => "?") ++ ")") = columns.length := by
  rw [qmarks_append, qmarks_append, joinWith_placeholders]
  have h1 : qmarks "(" = 0 := by decide
  have h2 : qmarks ")" = 0 := by decide
  omega

/-- The joined placeholder groups of `values`: one `?` per row per column. -/
theorem qmarks_value_groups {β : Type} (rows : List β) (columns : List String) :
    qmarks (joinWith ", "
        (rows.map fun _ => "(" ++ joinWith ", " (columns.map fun _ => "?") ++ ")"))
      = rows.length * columns.length := by
  rw [qmarks, joinWith_count '?' ", " (by decide), List.map_map]
  have h1 : ((fun s : String => s.data.count '?') ∘
      fun _ : β => "(" ++ joinWith ", " (columns.map fun _ => "?") ++ ")")
      = fun _ : β => columns.length := by
    funext x
    simp only [Function.comp_apply]
    exact qmarks_group columns
  rw [h1, sum_const]

/-- The row-major flattening of `values` binds one value per row per
column. -/
theorem flatten_rows_length (rows : List Row) (columns : List String) :
    ((rows.map fun row => columns.map fun col => rowGet row col).flatten).length
      = rows.length * columns.length := by
  rw [List.length_flatten, List.map_map]
  have h1 : ((fun l : List Value => l.length) ∘
      fun row : Row => columns.map fun col => rowGet row col)
      = fun _ : Row => columns.length := by
    funext row
    simp [Function.comp_apply]
  rw [h1, sum_const]

/-! ### Clause-call sequences

To quantify over "any sequence of chained clause calls" (claims C1 and
C2) the clause calls of each builder kind are reified as data and
interpreted by folding the builder operations above. -/

/-- A call to one of the eight condition builders. -/
inductive CondCall where
  | ceq (col : String) (v : Value)
  | cne (col : String) (v : Value)
  | cgt (col : String) (v : Value)
  | cgte (col : String) (v : Value)
  | clt (col : String) (v : Value)
  | clte (col : String) (v : Value)
  | clike (col : String) (pat : String)
  | cinArr (col : String) (vs : List Value)
deriving DecidableEq

def CondCall.build : CondCall → WhereCondition
  | .ceq col v => eq col v
  | .cne col v => ne col v
  | .cgt col v => gt col v
  | .cgte col v => gte col v
  | .clt col v => lt col v
  | .clte col v => lte col v
  | .clike col p => like col p
  | .cinArr col vs => inArray col vs

/-- The interpolated argument of a condition builder — its column
identifier — contains no `?`.  (Operand values are bound, never
interpolated, so they are unrestricted.) -/
def CondCall.ok : CondCall → Bool
  | .ceq col _ | .cne col _ | .cgt col _ | .cgte col _
  | .clt col _ | .clte col _ | .clike col _ | .cinArr col _ =>
    decide ('?' ∉ col.data)

/-- A clause call chained onto a Select builder. -/
inductive SelClause where
  | sFrom (table : String)
  | sWhere (c : CondCall)
  | sOrWhere (c : CondCall)
  | sOrderBy (col : String) (d : SQLDir)
  | sLimit (n : Nat)
  | sOffset (n : Nat)
  | sJoin (table cond : String)
  | sLeftJoin (table cond : String)
deriving DecidableEq

def applySel (st : Stmt) : SelClause → Stmt
  | .sFrom t => st.fromTable t
  | .sWhere c => st.whereCl c.build
  | .sOrWhere c => st.orWhereCl c.build
  | .sOrderBy col d => st.orderBy col d
  | .sLimit n => st.limit n
  | .sOffset n => st.offset n
  | .sJoin t c => st.join t c
  | .sLeftJoin t c => st.leftJoin t c

/-- No interpolated argument of the clause call contains `?`. -/
def SelClause.ok : SelClause → Bool
  | .sFrom t => decide ('?' ∉ t.data)
  | .sWhere c | .sOrWhere c => c.ok
  | .sOrderBy col _ => decide ('?' ∉ col.data)
  | .sLimit _ | .sOffset _ => true
  | .sJoin t c | .sLeftJoin t c => decide ('?' ∉ t.data) && decide ('?' ∉ c.data)

/-- A Select statement built by a chain of clause calls. -/
def buildSel (columns : List String) (cs : List SelClause) : Stmt :=
  cs.foldl applySel (select columns)

/-- A clause call chained onto an Update builder. -/
inductive UpdClause where
  | uSet (data : Row)
  | uWhere (c : CondCall)
  | uOrWhere (c : CondCall)
deriving DecidableEq

def applyUpd (st : Stmt) : UpdClause → Stmt
  | .uSet d => st.set d
  | .uWhere c => st.whereCl c.build
  | .uOrWhere c => st.orWhereCl c.build

def UpdClause.ok : UpdClause → Bool
  | .uSet d => decide (∀ k ∈ d.map Prod.fst, '?' ∉ k.data)
  | .uWhere c | .uOrWhere c => c.ok

def buildUpd (table : String) (cs : List UpdClause) : Stmt :=
  cs.foldl applyUpd (update table)

/-- A clause call chained onto a Delete builder. -/
inductive DelClause where
  | dFrom (table : String)
  | dWhere (c : CondCall)
  | dOrWhere (c : CondCall)
deriving DecidableEq

def applyDel (st : Stmt) : DelClause → Stmt
  | .dFrom t => st.fromTable t
  | .dWhere c => st.whereCl c.build
  | .dOrWhere c => st.orWhereCl c.build

def DelClause.ok : DelClause → Bool
  | .dFrom t => decide ('?' ∉ t.data)
  | .dWhere c | .dOrWhere c => c.ok

def buildDel (cs : List DelClause) : Stmt :=
  cs.foldl applyDel delete

/-- The parameter-alignment invariant of spec §3: the number of `?`
placeholders in the SQL text equals the number of bound parameters. -/
def aligned (query : String) (params : List Value) : Prop :=
  qmarks query = params.length

/-- Every condition builder emits as many `?` placeholders as bound
values (given a `?`-free column identifier). -/
theorem condCall_aligned (cc : CondCall) (h : cc.ok = true) :
    qmarks cc.build.sql = cc.build.params.length := by
  cases cc <;>
    simp only [CondCall.ok, decide_eq_true_eq] at h <;>
    simp only [CondCall.build, eq, ne, gt, gte, lt, lte, like, inArray,
      qmarks_append, joinWith_placeholders, qmarks_of_not_mem _ h,
      List.length_cons, List.length_nil] <;>
    first
      | decide
      | (have h1 : qmarks "\"" = 0 := by decide
         have h2 : qmarks "\" IN (" = 0 := by decide
         have h3 : qmarks ")" = 0 := by decide
         omega)

/-- `where` appends its parameters at the end and its SQL fragment at the
end of the text, after a placeholder-free separator: positional
correspondence of new placeholders and new parameters. -/
theorem whereCl_shape (st : Stmt) (c : WhereCondition) :
    (st.whereCl c).params = st.params ++ c.params
      ∧ ∃ sep : String, qmarks sep = 0 ∧ (st.whereCl c).query = st.query ++ sep ++ c.sql := by
  unfold Stmt.whereCl
  split
  · exact ⟨rfl, " AND ", by decide, rfl⟩
  · exact ⟨rfl, " WHERE ", by decide, rfl⟩

/-- As `whereCl_shape`, for `orWhere`. -/
theorem orWhereCl_shape (st : Stmt) (c : WhereCondition) :
    (st.orWhereCl c).params = st.params ++ c.params
      ∧ ∃ sep : String, qmarks sep = 0 ∧ (st.orWhereCl c).query = st.query ++ sep ++ c.sql := by
  unfold Stmt.orWhereCl
  split
  · exact ⟨rfl, " OR ", by decide, rfl⟩
  · exact ⟨rfl, " WHERE ", by decide, rfl⟩

theorem whereCl_aligned (st : Stmt) (c : WhereCondition) (hst : aligned st.query st.params)
    (hc : qmarks c.sql = c.params.length) :
    aligned (st.whereCl c).query (st.whereCl c).params := by
  obtain ⟨hp, sep, hsep, hq⟩ := whereCl_shape st c
  simp only [aligned] at *
  rw [hp, hq, qmarks_append, qmarks_append, List.length_append]
  omega

theorem orWhereCl_aligned (st : Stmt) (c : WhereCondition) (hst : aligned st.query st.params)
    (hc : qmarks c.sql = c.params.length) :
    aligned (st.orWhereCl c).query (st.orWhereCl c).params := by
  obtain ⟨hp, sep, hsep, hq⟩ := orWhereCl_shape st c
  simp only [aligned] at *
  rw [hp, hq, qmarks_append, qmarks_append, List.length_append]
  omega

theorem render_no_qmark (d : SQLDir) : qmarks d.render = 0 := by
  cases d <;> decide

/-- Every Select clause call preserves parameter alignment. -/
theorem applySel_aligned (st : Stmt) (cl : SelClause) (hst : aligned st.query st.params)
    (hcl : cl.ok = true) : aligned (applySel st cl).query (applySel st cl).params := by
  cases cl with
  | sFrom t =>
    simp only [SelClause.ok, decide_eq_true_eq] at hcl
    simp only [aligned, applySel, Stmt.fromTable, qmarks_append,
      qmarks_of_not_mem t hcl] at *
    have h1 : qmarks " FROM \"" = 0 := by decide
    have h2 : qmarks "\"" = 0 := by decide
    omega
  | sWhere c =>
    exact whereCl_aligned st c.build hst (condCall_aligned c hcl)
  | sOrWhere c =>
    exact orWhereCl_aligned st c.build hst (condCall_aligned c hcl)
  | sOrderBy col d =>
    simp only [SelClause.ok, decide_eq_true_eq] at hcl
    simp only [aligned, applySel, Stmt.orderBy, qmarks_append,
      qmarks_of_not_mem col hcl, render_no_qmark] at *
    have h1 : qmarks " ORDER BY \"" = 0 := by decide
    have h2 : qmarks "\" " = 0 := by decide
    omega
  | sLimit n =>
    simp only [aligned, applySel, Stmt.limit, qmarks_append, qmarks_repr] at *
    have h1 : qmarks " LIMIT " = 0 := by decide
    omega
  | sOffset n =>
    simp only [aligned, applySel, Stmt.offset, qmarks_append, qmarks_repr] at *
    have h1 : qmarks " OFFSET " = 0 := by decide
    omega
  | sJoin t c =>
    simp only [SelClause.ok, Bool.and_eq_true, decide_eq_true_eq] at hcl
    simp only [aligned, applySel, Stmt.join, qmarks_append,
      qmarks_of_not_mem t hcl.1, qmarks_of_not_mem c hcl.2] at *
    have h1 : qmarks " INNER JOIN \"" = 0 := by decide
    have h2 : qmarks "\" ON " = 0 := by decide
    omega
  | sLeftJoin t c =>
    simp only [SelClause.ok, Bool.and_eq_true, decide_eq_true_eq] at hcl
    simp only [aligned, applySel, Stmt.leftJoin, qmarks_append,
      qmarks_of_not_mem t hcl.1, qmarks_of_not_mem c hcl.2] at *
    have h1 : qmarks " LEFT JOIN \"" = 0 := by decide
    have h2 : qmarks "\" ON " = 0 := by decide
    omega

/-- `set` preserves parameter alignment. -/
theorem set_aligned (st : Stmt) (d : Row) (hst : aligned st.query st.params)
    (h : ∀ k ∈ d.map Prod.fst, '?' ∉ k.data) :
    aligned (st.set d).query (st.set d).params := by
  simp only [aligned, Stmt.set, qmarks_append, List.length_append, List.length_map] at *
  rw [joinWith_qmarks_each_one]
  · have h1 : qmarks " SET " = 0 := by decide
    simp only [List.length_map]
    omega
  · intro s hs
    simp only [List.mem_map] at hs
    obtain ⟨col, hcol, rfl⟩ := hs
    have hcol2 : col ∈ d.map Prod.fst := by
      simp only [List.mem_map]
      exact hcol
    exact qmarks_set_pair col (h col hcol2)

theorem applyUpd_aligned (st : Stmt) (cl : UpdClause) (hst : aligned st.query st.params)
    (hcl : cl.ok = true) : aligned (applyUpd st cl).query (applyUpd st cl).params := by
  cases cl with
  | uSet d =>
    simp only [UpdClause.ok, decide_eq_true_eq] at hcl
    exact set_aligned st d hst hcl
  | uWhere c =>
    exact whereCl_aligned st c.build hst (condCall_aligned c hcl)
  | uOrWhere c =>
    exact orWhereCl_aligned st c.build hst (condCall_aligned c hcl)

theorem applyDel_aligned (st : Stmt) (cl : DelClause) (hst : aligned st.query st.params)
    (hcl : cl.ok = true) : aligned (applyDel st cl).query (applyDel st cl).params := by
  cases cl with
  | dFrom t =>
    simp only [DelClause.ok, decide_eq_true_eq] at hcl
    simp only [aligned, applyDel, Stmt.fromTable, qmarks_append,
      qmarks_of_not_mem t hcl] at *
    have h1 : qmarks " FROM \"" = 0 := by decide
    have h2 : qmarks "\"" = 0 := by decide
    omega
  | dWhere c =>
    exact whereCl_aligned st c.build hst (condCall_aligned c hcl)
  | dOrWhere c =>
    exact orWhereCl_aligned st c.build hst (condCall_aligned c hcl)

theorem foldl_applySel_aligned (cs : List SelClause) :
    ∀ st : Stmt, aligned st.query st.params → (∀ cl ∈ cs, cl.ok = true) →
      aligned (cs.foldl applySel st).query (cs.foldl applySel st).params := by
  induction cs with
  | nil => exact fun st h _ => h
  | cons c cs ih =>
    intro st h hok
    rw [List.foldl_cons]
    exact ih _ (applySel_aligned st c h (hok c (List.mem_cons_self c cs)))
      fun cl hcl => hok cl (List.mem_cons_of_mem c hcl)

theorem foldl_applyUpd_aligned (cs : List UpdClause) :
    ∀ st : Stmt, aligned st.query st.params → (∀ cl ∈ cs, cl.ok = true) →
      aligned (cs.foldl applyUpd st).query (cs.foldl applyUpd st).params := by
  induction cs with
  | nil => exact fun st h _ => h
  | cons c cs ih =>
    intro st h hok
    rw [List.foldl_cons]
    exact ih _ (applyUpd_aligned st c h (hok c (List.mem_cons_self c cs)))
      fun cl hcl => hok cl (List.mem_cons_of_mem c hcl)

theorem foldl_applyDel_aligned (cs : List DelClause) :
    ∀ st : Stmt, aligned st.query st.params → (∀ cl ∈ cs, cl.ok = true) →
      aligned (cs.foldl applyDel st).query (cs.foldl applyDel st).params := by
  induction cs with
  | nil => exact fun st h _ => h
  | cons c cs ih =>
    intro st h hok
    rw [List.foldl_cons]
    exact ih _ (applyDel_aligned st c h (hok c (List.mem_cons_self c cs)))
      fun cl hcl => hok cl (List.mem_cons_of_mem c hcl)

/-- The Select seed `SELECT <cols>` is aligned. -/
theorem select_aligned (columns : List String) (h : ∀ s ∈ columns, '?' ∉ s.data) :
    aligned (select columns).query (select columns).params := by
  simp only [aligned, select, List.length_nil]
  rw [qmarks_append]
  have h0 : qmarks "SELECT " = 0 := by decide
  by_cases hc : (columns.length == 0) = true
  · rw [if_pos hc]
    have h1 : qmarks "*" = 0 := by decide
    omega
  · rw [if_neg hc, joinWith_qmarks_zero columns fun s hs => qmarks_of_not_mem s (h s hs)]
    omega

/-- The Update seed `UPDATE "table"` is aligned. -/
theorem update_aligned (table : String) (h : '?' ∉ table.data) :
    aligned (update table).query (update table).params := by
  simp only [aligned, update, List.length_nil, qmarks_append, qmarks_of_not_mem table h]
  decide

/-- A single `values` call on a fresh Insert builder is aligned. -/
theorem insert_values_aligned (table : String) (rows : List Row)
    (ht : '?' ∉ table.data)
    (hk : ∀ k ∈ (rows.headD []).map Prod.fst, '?' ∉ k.data) :
    aligned ((insert table).values rows).query ((insert table).values rows).params := by
  simp only [aligned, insert, InsStmt.values, qmarks_append, List.nil_append]
  rw [qmarks_of_not_mem table ht, qmarks_value_groups, flatten_rows_length]
  have hz : ∀ s ∈ ((rows.headD []).map Prod.fst).map fun col => "\"" ++ col ++ "\"",
      qmarks s = 0 := by
    intro s hs
    simp only [List.mem_map] at hs
    obtain ⟨col, hcol, rfl⟩ := hs
    have hcol2 : col ∈ (rows.headD []).map Prod.fst := by
      simp only [List.mem_map]
      exact hcol
    exact qmarks_quoted_col col (hk col hcol2)
  rw [joinWith_qmarks_zero _ hz]
  have h1 : qmarks "INSERT INTO \"" = 0 := by decide
  have h2 : qmarks "\" (" = 0 := by decide
  have h3 : qmarks ") VALUES " = 0 := by decide
  omega

/-- The Delete seed `DELETE` is aligned. -/
theorem delete_aligned : aligned delete.query delete.params := by
  simp only [aligned, delete, List.length_nil]
  decide

/-! ### WHERE-chaining machinery (claim C2) -/

/-- A `where` (`andW`) or `orWhere` (`orW`) call with its condition. -/
inductive WhereCall where
  | andW (c : WhereCondition)
  | orW (c : WhereCondition)
deriving DecidableEq

def applyW (st : Stmt) : WhereCall → Stmt
  | .andW c => st.whereCl c
  | .orW c => st.orWhereCl c

def WhereCall.cond : WhereCall → WhereCondition
  | .andW c => c
  | .orW c => c

/-- On a statement whose text has no `WHERE` occurrence, the first
`where`/`orWhere` call takes the ` WHERE ` branch and yields exactly one
occurrence. -/
theorem applyW_first (st : Stmt) (w : WhereCall)
    (h0 : countOcc "WHERE".data st.query.data = 0)
    (hc : countOcc "WHERE".data w.cond.sql.data = 0) :
    countOcc "WHERE".data (applyW st w).query.data = 1 := by
  have hinc : strIncludes st.query "WHERE" = false := by
    rw [Bool.eq_false_iff]
    intro hh
    have h2 := (strIncludes_iff _ _).mp hh
    omega
  cases w with
  | andW c =>
    simp only [WhereCall.cond] at hc
    simp [applyW, Stmt.whereCl, hinc]
    rw [show st.query.data ++ ' ' :: 'W' :: 'H' :: 'E' :: 'R' :: 'E' :: ' ' :: c.sql.data
        = st.query.data ++ ' ' :: (['W', 'H', 'E', 'R', 'E'] ++ ' ' :: c.sql.data) from rfl]
    rw [countOcc_space_block _ _ _ _ (by decide) (by decide)]
    have hw : countOcc ['W', 'H', 'E', 'R', 'E'] ['W', 'H', 'E', 'R', 'E'] = 1 := by decide
    have h0x : countOcc ['W', 'H', 'E', 'R', 'E'] st.query.data = 0 := h0
    have hcx : countOcc ['W', 'H', 'E', 'R', 'E'] c.sql.data = 0 := hc
    omega
  | orW c =>
    simp only [WhereCall.cond] at hc
    simp [applyW, Stmt.orWhereCl, hinc]
    rw [show st.query.data ++ ' ' :: 'W' :: 'H' :: 'E' :: 'R' :: 'E' :: ' ' :: c.sql.data
        = st.query.data ++ ' ' :: (['W', 'H', 'E', 'R', 'E'] ++ ' ' :: c.sql.data) from rfl]
    rw [countOcc_space_block _ _ _ _ (by decide) (by decide)]
    have hw : countOcc ['W', 'H', 'E', 'R', 'E'] ['W', 'H', 'E', 'R', 'E'] = 1 := by decide
    have h0x : countOcc ['W', 'H', 'E', 'R', 'E'] st.query.data = 0 := h0
    have hcx : countOcc ['W', 'H', 'E', 'R', 'E'] c.sql.data = 0 := hc
    omega

/-- On a statement whose text already has exactly one `WHERE` occurrence,
a further `where`/`orWhere` call takes the ` AND `/` OR ` branch and
keeps the count at one. -/
theorem applyW_next (st : Stmt) (w : WhereCall)
    (h1 : countOcc "WHERE".data st.query.data = 1)
    (hc : countOcc "WHERE".data w.cond.sql.data = 0) :
    countOcc "WHERE".data (applyW st w).query.data = 1 := by
  have hinc : strIncludes st.query "WHERE" = true := (strIncludes_iff _ _).mpr (by omega)
  cases w with
  | andW c =>
    simp only [WhereCall.cond] at hc
    simp [applyW, Stmt.whereCl, hinc]
    rw [show st.query.data ++ ' ' :: 'A' :: 'N' :: 'D' :: ' ' :: c.sql.data
        = st.query.data ++ ' ' :: (['A', 'N', 'D'] ++ ' ' :: c.sql.data) from rfl]
    rw [countOcc_space_block _ _ _ _ (by decide) (by decide)]
    have hz : countOcc ['W', 'H', 'E', 'R', 'E'] ['A', 'N', 'D'] = 0 := by decide
    have h1x : countOcc ['W', 'H', 'E', 'R', 'E'] st.query.data = 1 := h1
    have hcx : countOcc ['W', 'H', 'E', 'R', 'E'] c.sql.data = 0 := hc
    omega
  | orW c =>
    simp only [WhereCall.cond] at hc
    simp [applyW, Stmt.orWhereCl, hinc]
    rw [show st.query.data ++ ' ' :: 'O' :: 'R' :: ' ' :: c.sql.data
        = st.query.data ++ ' ' :: (['O', 'R'] ++ ' ' :: c.sql.data) from rfl]
    rw [countOcc_space_block _ _ _ _ (by decide) (by decide)]
    have hz : countOcc ['W', 'H', 'E', 'R', 'E'] ['O', 'R'] = 0 := by decide
    have h1x : countOcc ['W', 'H', 'E', 'R', 'E'] st.query.data = 1 := h1
    have hcx : countOcc ['W', 'H', 'E', 'R', 'E'] c.sql.data = 0 := hc
    omega

theorem foldl_applyW_one (calls : List WhereCall) :
    ∀ st : Stmt, countOcc "WHERE".data st.query.data = 1 →
      (∀ c ∈ calls, countOcc "WHERE".data c.cond.sql.data = 0) →
      countOcc "WHERE".data (calls.foldl applyW st).query.data = 1 := by
  induction calls with
  | nil => exact fun st h _ => h
  | cons w ws ih =>
    intro st h hok
    rw [List.foldl_cons]
    exact ih _ (applyW_next st w h (hok w (List.mem_cons_self w ws)))
      fun c hc => hok c (List.mem_cons_of_mem w hc)

/-! ### Helpers for claims C3 and C8 -/

/-- A nodup list filters to a singleton when the predicate holds at
exactly one of its members. -/
theorem filter_eq_singleton {α : Type} {l : List α} {p : α → Bool} {k : α}
    (hnd : l.Nodup) (hk : k ∈ l) (hpk : p k = true)
    (huniq : ∀ x ∈ l, p x = true → x = k) : l.filter p = [k] := by
  have hsub : (l.filter p).Nodup := hnd.filter p
  have hmem : ∀ x, x ∈ l.filter p ↔ x = k := by
    intro x
    rw [List.mem_filter]
    constructor
    · rintro ⟨hx, hpx⟩
      exact huniq x hx hpx
    · rintro rfl
      exact ⟨hk, hpk⟩
  cases hl : l.filter p with
  | nil =>
    have hkk := (hmem k).mpr rfl
    rw [hl] at hkk
    exact absurd hkk (List.not_mem_nil k)
  | cons x t =>
    have hx : x = k := (hmem x).mp (by rw [hl]; exact List.mem_cons_self x t)
    cases t with
    | nil => rw [hx]
    | cons y t2 =>
      have hy : y = k :=
        (hmem y).mp (by rw [hl]; exact List.mem_cons_of_mem x (List.mem_cons_self y t2))
      rw [hl] at hsub
      have hnin := (List.nodup_cons.mp hsub).1
      exact absurd (by rw [hx, ← hy]; exact List.mem_cons_self y t2) hnin

/-- Two strings with the same character data are equal. -/
theorem str_ext (s t : String) (h : s.data = t.data) : s = t := by
  cases s
  cases t
  exact congrArg String.mk h

/-- `mapSQLiteType` yields `number` exactly for uppercased names that
contain `INT` or equal `REAL`. -/
theorem mapSQLite_iff (t : String) :
    mapSQLiteType t = "number"
      ↔ (strIncludes (jsToUpper t) "INT" = true ∨ jsToUpper t = "REAL") := by
  unfold mapSQLiteType
  by_cases h1 : strIncludes (jsToUpper t) "INT" = true
  · simp [h1]
  · by_cases h2 : jsToUpper t = "REAL"
    · simp [h1, h2]
    · simp [h1, h2]

/-! ### The claims -/

/-- C4: the chain `select('x','y').from('T').where(eq('x',3)).where(eq('y',4))`
produces exactly the SQL text `SELECT x, y FROM "T" WHERE "x" = ? AND "y" = ?`
with bound parameter list `[3, 4]` in that order. -/
theorem claim_C4 :
    (((select ["x", "y"]).fromTable "T").whereCl (eq "x" (Value.vInt 3))).whereCl
        (eq "y" (Value.vInt 4))
      = { query := "SELECT x, y FROM \"T\" WHERE \"x\" = ? AND \"y\" = ?",
          params := [Value.vInt 3, Value.vInt 4] } := by
  decide

/-- C5: `insert('T').values([{a:1,b:2},{a:3,b:4}])` produces exactly
`INSERT INTO "T" ("a", "b") VALUES (?, ?), (?, ?)` with bound parameters
`[1,2,3,4]`; and in general, for a multi-row call, the SQL column list is
the quoted, comma-joined key list of the first row, the VALUES section
joins one parenthesized placeholder group per row (each holding one `?`
per first-row column), and the bound values are flattened row-major (all
columns of row 1, then all columns of row 2, …). -/
theorem claim_C5 :
    ((insert "T").values
        [[("a", Value.vInt 1), ("b", Value.vInt 2)],
         [("a", Value.vInt 3), ("b", Value.vInt 4)]]
      = { table := "T",
          query := "INSERT INTO \"T\" (\"a\", \"b\") VALUES (?, ?), (?, ?)",
          params := [Value.vInt 1, Value.vInt 2, Value.vInt 3, Value.vInt 4] })
    ∧ ∀ (t : String) (r : Row) (rs : List Row),
        ((insert t).values (r :: rs)).query
            = "INSERT INTO \"" ++ t ++ "\" ("
                ++ joinWith ", " ((r.map Prod.fst).map fun col => "\"" ++ col ++ "\"")
                ++ ") VALUES "
                ++ joinWith ", " ((r :: rs).map fun _ =>
                    "(" ++ joinWith ", " ((r.map Prod.fst).map fun _ => "?") ++ ")")
          ∧ ((insert t).values (r :: rs)).params
            = ((r :: rs).map fun row => (r.map Prod.fst).map fun col => rowGet row col).flatten := by
  constructor
  · decide
  · intro t r rs
    constructor
    · simp [InsStmt.values, insert]
    · simp [InsStmt.values, insert]

/-- C6 counterexample: `inArray` applied to an empty value sequence does
emit the fragment `"col" IN ()`, which the claim says is never produced. -/
theorem claim_C6_counterexample :
    (inArray "col" []).sql = "\"col\" IN ()" := by
  decide

/-- C6 (amended): `inArray(col, [])` produces the fragment `"col" IN ()`
with an empty bound-value list; the source has no empty-sequence special
case and never rewrites to a `1=0`-style "no rows match" fragment. -/
theorem claim_C6 :
    ∀ col : String,
      (inArray col []).sql = "\"" ++ col ++ "\" IN ()" ∧ (inArray col []).params = [] := by
  intro col
  refine ⟨?_, rfl⟩
  apply str_ext
  simp only [inArray, joinWith, List.map_nil, String.data_append, List.append_assoc]
  rfl

/-- C7: `first()` executes the statement and returns the first result row
when the Executor's result sequence is non-empty, and the explicit `null`
sentinel (`none`) — not an error, not an ambiguous value — when it is
empty. -/
theorem claim_C7 :
    ∀ (ex : Executor) (st : Stmt),
      (ex st.query st.params = [] → first ex st = none)
      ∧ ∀ (r : Row) (rest : List Row),
          ex st.query st.params = r :: rest → first ex st = some r := by
  intro ex st
  constructor
  · intro h
    simp [first, h]
  · intro r rest h
    simp [first, h]

theorem claim_C7_witness :
    first (fun _ _ => []) (select []) = none
      ∧ first (fun _ _ => [[("a", Value.vInt 1)]]) (select [])
          = some [("a", Value.vInt 1)] :=
  ⟨(claim_C7 (fun _ _ => []) (select [])).1 rfl,
   (claim_C7 (fun _ _ => [[("a", Value.vInt 1)]]) (select [])).2 _ [] rfl⟩

/-- C9: a second `values()` call on the same Insert builder replaces the
accumulated SQL text entirely (it depends only on the table and the new
rows) while appending the new bound values after the earlier ones, so
after two calls `params` holds both calls' values but `query` holds
placeholders only for the second. -/
theorem claim_C9 :
    (∀ (t : String) (rows1 rows2 : List Row),
        (((insert t).values rows1).values rows2).query = ((insert t).values rows2).query
          ∧ (((insert t).values rows1).values rows2).params
              = ((insert t).values rows1).params ++ ((insert t).values rows2).params)
    ∧ ((insert "T").values [[("a", Value.vInt 1)]]).values [[("a", Value.vInt 2)]]
        = { table := "T", query := "INSERT INTO \"T\" (\"a\") VALUES (?)",
            params := [Value.vInt 1, Value.vInt 2] } := by
  constructor
  · intro t rows1 rows2
    constructor
    · simp [InsStmt.values, insert]
    · simp [InsStmt.values, insert]
  · decide

/-- C10: `limit(n)` and `offset(n)` interpolate the decimal rendering of
`n` directly into the SQL text, add no `?` placeholder, and leave the
bound parameters unchanged. -/
theorem claim_C10 :
    ∀ (st : Stmt) (n : Nat),
      (st.limit n).params = st.params
      ∧ (st.limit n).query = st.query ++ " LIMIT " ++ Nat.repr n
      ∧ qmarks (st.limit n).query = qmarks st.query
      ∧ (st.offset n).params = st.params
      ∧ (st.offset n).query = st.query ++ " OFFSET " ++ Nat.repr n
      ∧ qmarks (st.offset n).query = qmarks st.query := by
  intro st n
  refine ⟨rfl, rfl, ?_, rfl, rfl, ?_⟩
  · rw [show (st.limit n).query = st.query ++ " LIMIT " ++ Nat.repr n from rfl,
      qmarks_append, qmarks_append, qmarks_repr]
    have h1 : qmarks " LIMIT " = 0 := by decide
    omega
  · rw [show (st.offset n).query = st.query ++ " OFFSET " ++ Nat.repr n from rfl,
      qmarks_append, qmarks_append, qmarks_repr]
    have h1 : qmarks " OFFSET " = 0 := by decide
    omega

/-- C8: the Schema Normalizer maps a column's datatype to `number`
exactly when the (case-normalized) type name contains `INT` or equals
`REAL`, and to `string` otherwise (unrecognized types included); the
constraint is `primary` for a primary-key column regardless of
null-ability, else `unique` when declared NOT NULL, else `none`. -/
theorem claim_C8 :
    (∀ t : String,
        (mapSQLiteType t = "number"
            ↔ (strIncludes (jsToUpper t) "INT" = true ∨ jsToUpper t = "REAL"))
          ∧ (¬(strIncludes (jsToUpper t) "INT" = true ∨ jsToUpper t = "REAL")
              → mapSQLiteType t = "string"))
    ∧ ∀ col : CatalogColumn,
        (col.pk ≠ 0 → columnConstraint col = "primary")
          ∧ (col.pk = 0 → col.notnull ≠ 0 → columnConstraint col = "unique")
          ∧ (col.pk = 0 → col.notnull = 0 → columnConstraint col = "none") := by
  constructor
  · intro t
    refine ⟨mapSQLite_iff t, ?_⟩
    intro h
    unfold mapSQLiteType
    rw [if_neg fun hx => h (Or.inl hx)]
    rw [if_neg fun hx => h (Or.inr (by simpa using hx))]
    by_cases h3 : (jsToUpper t == "TEXT") = true
    · rw [if_pos h3]
    · rw [if_neg h3]
  · intro col
    refine ⟨?_, ?_, ?_⟩
    · intro h
      unfold columnConstraint
      rw [if_pos h]
    · intro h hn
      unfold columnConstraint
      rw [if_neg (by omega), if_pos hn]
    · intro h hn
      unfold columnConstraint
      rw [if_neg (by omega), if_neg (by omega)]

theorem claim_C8_witness :
    mapSQLiteType "integer" = "number"
      ∧ mapSQLiteType "blob" = "string"
      ∧ columnConstraint { name := "id", type := "INTEGER", notnull := 0, pk := 1 } = "primary"
      ∧ columnConstraint { name := "x", type := "TEXT", notnull := 1, pk := 0 } = "unique"
      ∧ columnConstraint { name := "y", type := "TEXT", notnull := 0, pk := 0 } = "none" :=
  ⟨((claim_C8.1 "integer").1).mpr (Or.inl (by decide)),
   (claim_C8.1 "blob").2 (by decide),
   ((claim_C8.2 _).1) (by decide),
   ((claim_C8.2 _).2.1) rfl (by decide),
   ((claim_C8.2 _).2.2) rfl rfl⟩

/-- C1 counterexample: `insert('T').values([{a:1}]).values([{a:2}])` is a
chain of clause calls whose arguments contain no `?`, yet the accumulated
text holds one placeholder while two parameters are bound (the second
`values` call overwrites `query` but appends to `params`). -/
theorem claim_C1_counterexample :
    qmarks ((((insert "T").values [[("a", Value.vInt 1)]]).values
        [[("a", Value.vInt 2)]]).query) = 1
      ∧ ((((insert "T").values [[("a", Value.vInt 1)]]).values
          [[("a", Value.vInt 2)]]).params).length = 2 := by
  decide

/-- C1 (amended): for every condition builder the fragment holds exactly
one `?` per bound value; `where`/`orWhere` append the fragment after a
placeholder-free separator and the values at the end of `params`, in
matching positional order; and every statement built by a chain of clause
calls whose interpolated arguments contain no `?` — any chain for
Select/Update/Delete, and at most one `values` call for Insert —
satisfies `count of ? in sqlText = length of boundParams`. -/
theorem claim_C1 :
    (∀ cc : CondCall, cc.ok = true → qmarks cc.build.sql = cc.build.params.length)
    ∧ (∀ (st : Stmt) (c : WhereCondition),
        ((st.whereCl c).params = st.params ++ c.params
            ∧ ∃ sep : String, qmarks sep = 0
                ∧ (st.whereCl c).query = st.query ++ sep ++ c.sql)
          ∧ ((st.orWhereCl c).params = st.params ++ c.params
            ∧ ∃ sep : String, qmarks sep = 0
                ∧ (st.orWhereCl c).query = st.query ++ sep ++ c.sql))
    ∧ (∀ (columns : List String) (cs : List SelClause),
        (∀ s ∈ columns, '?' ∉ s.data) → (∀ cl ∈ cs, cl.ok = true) →
          aligned (buildSel columns cs).query (buildSel columns cs).params)
    ∧ (∀ (table : String) (cs : List UpdClause),
        '?' ∉ table.data → (∀ cl ∈ cs, cl.ok = true) →
          aligned (buildUpd table cs).query (buildUpd table cs).params)
    ∧ (∀ cs : List DelClause,
        (∀ cl ∈ cs, cl.ok = true) →
          aligned (buildDel cs).query (buildDel cs).params)
    ∧ ∀ (table : String) (rows : List Row),
        '?' ∉ table.data → (∀ k ∈ (rows.headD []).map Prod.fst, '?' ∉ k.data) →
          aligned ((insert table).values rows).query ((insert table).values rows).params := by
  refine ⟨condCall_aligned, fun st c => ⟨whereCl_shape st c, orWhereCl_shape st c⟩,
    ?_, ?_, ?_, insert_values_aligned⟩
  · intro columns cs hcols hok
    exact foldl_applySel_aligned cs (select columns) (select_aligned columns hcols) hok
  · intro t cs ht hok
    exact foldl_applyUpd_aligned cs (update t) (update_aligned t ht) hok
  · intro cs hok
    exact foldl_applyDel_aligned cs delete delete_aligned hok

theorem claim_C1_witness :
    aligned (buildSel ["x"] [SelClause.sFrom "T",
        SelClause.sWhere (CondCall.ceq "a" (Value.vInt 1)),
        SelClause.sOrWhere (CondCall.cinArr "b" [Value.vInt 2, Value.vInt 3]),
        SelClause.sLimit 5]).query
      (buildSel ["x"] [SelClause.sFrom "T",
        SelClause.sWhere (CondCall.ceq "a" (Value.vInt 1)),
        SelClause.sOrWhere (CondCall.cinArr "b" [Value.vInt 2, Value.vInt 3]),
        SelClause.sLimit 5]).params
      ∧ qmarks (CondCall.cinArr "c" [Value.vInt 1, Value.vInt 2]).build.sql
          = (CondCall.cinArr "c" [Value.vInt 1, Value.vInt 2]).build.params.length
      ∧ aligned ((insert "T").values [[("a", Value.vInt 1), ("b", Value.vInt 2)]]).query
          ((insert "T").values [[("a", Value.vInt 1), ("b", Value.vInt 2)]]).params :=
  ⟨claim_C1.2.2.1 ["x"] [SelClause.sFrom "T",
      SelClause.sWhere (CondCall.ceq "a" (Value.vInt 1)),
      SelClause.sOrWhere (CondCall.cinArr "b" [Value.vInt 2, Value.vInt 3]),
      SelClause.sLimit 5] (by decide) (by decide),
   claim_C1.1 (CondCall.cinArr "c" [Value.vInt 1, Value.vInt 2]) (by decide),
   claim_C1.2.2.2.2.2 "T" [[("a", Value.vInt 1), ("b", Value.vInt 2)]]
     (by decide) (by decide)⟩

/-- C2 counterexample: on the fresh Select statement
`select('aWHERE','bWHERE')` the seed text already contains the substring
`WHERE` inside the column names, so the first `where` call prefixes
` AND ` — not ` WHERE ` — and the final text carries two `WHERE`
substrings and no space-delimited `WHERE` token at all, refuting "the
first call yields exactly one WHERE token". -/
theorem claim_C2_counterexample :
    ((select ["aWHERE", "bWHERE"]).whereCl (eq "a" (Value.vInt 1))).query
        = "SELECT aWHERE, bWHERE AND \"a\" = ?"
      ∧ countOcc "WHERE".data
          ((select ["aWHERE", "bWHERE"]).whereCl (eq "a" (Value.vInt 1))).query.data = 2
      ∧ countOcc " WHERE ".data
          ((select ["aWHERE", "bWHERE"]).whereCl (eq "a" (Value.vInt 1))).query.data = 0 := by
  decide

/-- C2 (amended): provided the fresh statement's text and every condition
fragment are free of the substring `WHERE`, any non-empty chain of
`where`/`orWhere` calls yields exactly one `WHERE` occurrence — the first
call introduces it (prefixing ` WHERE `) and subsequent calls, which
prefix ` AND ` (`where`) or ` OR ` (`orWhere`), never introduce a second.
This covers Select, Update and Delete, whose `where`/`orWhere`
implementations are textually identical. -/
theorem claim_C2 :
    (∀ (st : Stmt) (calls : List WhereCall),
        countOcc "WHERE".data st.query.data = 0 →
        (∀ c ∈ calls, countOcc "WHERE".data c.cond.sql.data = 0) →
        calls ≠ [] →
        countOcc "WHERE".data (calls.foldl applyW st).query.data = 1)
    ∧ (∀ (st : Stmt) (c : WhereCondition),
        countOcc "WHERE".data st.query.data = 0 →
        (st.whereCl c).query = st.query ++ " WHERE " ++ c.sql
          ∧ (st.orWhereCl c).query = st.query ++ " WHERE " ++ c.sql)
    ∧ ∀ (st : Stmt) (c : WhereCondition),
        0 < countOcc "WHERE".data st.query.data →
        (st.whereCl c).query = st.query ++ " AND " ++ c.sql
          ∧ (st.orWhereCl c).query = st.query ++ " OR " ++ c.sql := by
  refine ⟨?_, ?_, ?_⟩
  · intro st calls h0 hok hne
    cases calls with
    | nil => exact absurd rfl hne
    | cons w ws =>
      rw [List.foldl_cons]
      exact foldl_applyW_one ws _ (applyW_first st w h0 (hok w (List.mem_cons_self w ws)))
        fun c hc => hok c (List.mem_cons_of_mem w hc)
  · intro st c h0
    have hinc : strIncludes st.query "WHERE" = false := by
      rw [Bool.eq_false_iff]
      intro hh
      have h2 := (strIncludes_iff _ _).mp hh
      omega
    constructor
    · simp [Stmt.whereCl, hinc]
    · simp [Stmt.orWhereCl, hinc]
  · intro st c h1
    have hinc : strIncludes st.query "WHERE" = true := (strIncludes_iff _ _).mpr h1
    constructor
    · simp [Stmt.whereCl, hinc]
    · simp [Stmt.orWhereCl, hinc]

theorem claim_C2_witness :
    countOcc "WHERE".data
        (([WhereCall.andW (eq "a" (Value.vInt 1)), WhereCall.orW (eq "b" (Value.vInt 2))].foldl
            applyW (select ["x"])).query.data) = 1 :=
  claim_C2.1 (select ["x"])
    [WhereCall.andW (eq "a" (Value.vInt 1)), WhereCall.orW (eq "b" (Value.vInt 2))]
    (by decide) (by decide) (by decide)

/-- C3 counterexample: `select()` with no `from` accumulates the text
`SELECT *`, which the `SELECT .* FROM` regex does not match; `count()`
raises no MalformedStatement error — the implementation has no error path
at all — but silently executes the unchanged statement text and returns a
normal result. -/
theorem claim_C3_counterexample :
    (select []).countQueryOf = "SELECT *"
      ∧ count (fun _ _ => [[("count", Value.vInt 0)]]) (select []) = some (Value.vInt 0) := by
  decide

/-- C3 (amended): when the accumulated text has the shape
`SELECT <a> FROM<b>` with ` FROM` occurring nowhere else and the column
section `<a>` free of line terminators (which the regex `.` cannot
match), `count()` executes exactly `SELECT COUNT(*) as count FROM<b>` —
the head is replaced structurally, every subsequent clause (`<b>`) and
every bound parameter is preserved — and returns the `count` field of
the first result row.  When the pattern does not match, no error is
raised: the text is passed through unchanged (see the counterexample). -/
theorem claim_C3 :
    ∀ (a b : List Char) (ps : List Value),
      (∀ q ∈ List.range ((selPat ++ a ++ fromPat ++ b).length + 1),
          occursAt fromPat (selPat ++ a ++ fromPat ++ b) q = true → q = 7 + a.length) →
      a.all (fun c => ! isLineTerm c) = true →
      (Stmt.countQueryOf
            { query := String.mk (selPat ++ a ++ fromPat ++ b), params := ps }).data
          = "SELECT COUNT(*) as count FROM".data ++ b
        ∧ ∀ (ex : Executor) (row : Row) (rest : List Row),
            ex (Stmt.countQueryOf
                { query := String.mk (selPat ++ a ++ fromPat ++ b), params := ps }) ps
              = row :: rest →
            count ex { query := String.mk (selPat ++ a ++ fromPat ++ b), params := ps }
              = some (rowGet row "count") := by
  intro a b ps huniq hA
  set s : List Char := selPat ++ a ++ fromPat ++ b with hs
  have h7 : selPat.length = 7 := by decide
  have h5 : fromPat.length = 5 := by decide
  have hlen : s.length = 12 + a.length + b.length := by
    rw [hs, List.length_append, List.length_append, List.length_append, h7, h5]
    omega
  have hassoc1 : s = (selPat ++ a) ++ (fromPat ++ b) := by
    rw [hs]
    simp [List.append_assoc]
  have hlen1 : (selPat ++ a).length = 7 + a.length := by
    rw [List.length_append, h7]
  have hdrop : s.drop (7 + a.length) = fromPat ++ b := by
    rw [hassoc1, ← hlen1, List.drop_left]
  have hassoc2 : s = (selPat ++ a ++ fromPat) ++ b := by
    rw [hs]
  have hlen2 : (selPat ++ a ++ fromPat).length = 12 + a.length := by
    rw [List.length_append, List.length_append, h7, h5]
    omega
  have hdropb : s.drop (12 + a.length) = b := by
    rw [hassoc2, ← hlen2, List.drop_left]
  have hocc : occursAt fromPat s (7 + a.length) = true := by
    rw [occursAt, hdrop]
    exact (isPrefixOf_eq_true_iff _ _).mpr (List.prefix_append _ _)
  have hsel : s = selPat ++ (a ++ (fromPat ++ b)) := by
    rw [hs]
    simp [List.append_assoc]
  have hdrop7 : s.drop 7 = a ++ (fromPat ++ b) := by
    rw [hsel, ← h7, List.drop_left]
  have hgap : gapOk s 7 (7 + a.length) = true := by
    unfold gapOk
    rw [hdrop7, show 7 + a.length - 7 = a.length from by omega, List.take_left]
    exact hA
  have hmemq : 7 + a.length ∈ List.range (s.length + 1) := List.mem_range.mpr (by omega)
  have hms : matchStart s = some 0 := by
    unfold matchStart
    nth_rewrite 2 [List.range_succ_eq_map]
    apply List.find?_cons_of_pos
    rw [Bool.and_eq_true]
    constructor
    · rw [occursAt, List.drop_zero]
      rw [hsel]
      exact (isPrefixOf_eq_true_iff _ _).mpr (List.prefix_append _ _)
    · rw [List.any_eq_true]
      exact ⟨7 + a.length, hmemq,
        by
          simp only [Bool.and_eq_true]
          exact ⟨⟨decide_eq_true (by omega), hocc⟩, hgap⟩⟩
  have hfil : (List.range (s.length + 1)).filter
      (fun q => decide (0 + 7 ≤ q) && occursAt fromPat s q && gapOk s (0 + 7) q)
        = [7 + a.length] := by
    apply filter_eq_singleton (List.nodup_range _) hmemq
    · show (decide (0 + 7 ≤ 7 + a.length) && occursAt fromPat s (7 + a.length)
          && gapOk s (0 + 7) (7 + a.length)) = true
      simp only [Bool.and_eq_true]
      exact ⟨⟨decide_eq_true (by omega), hocc⟩, hgap⟩
    · intro x hx hpx
      simp only [Bool.and_eq_true] at hpx
      exact huniq x hx hpx.1.2
  have hme : matchEnd s 0 = some (7 + a.length) := by
    unfold matchEnd
    rw [hfil]
    rfl
  have hrepl : replaceSelectFrom s = "SELECT COUNT(*) as count FROM".data ++ b := by
    simp only [replaceSelectFrom, hms, hme]
    rw [show 7 + a.length + 5 = 12 + a.length from by omega, hdropb,
      List.take_zero, List.nil_append]
  constructor
  · exact hrepl
  · intro ex row rest h
    simp [count, h]

theorem claim_C3_witness :
    (Stmt.countQueryOf
        { query := String.mk (selPat ++ ['*'] ++ fromPat ++ " \"T\"".data),
          params := [Value.vInt 7] }).data
        = "SELECT COUNT(*) as count FROM".data ++ " \"T\"".data
      ∧ count (fun _ _ => [[("count", Value.vInt 5)]])
          { query := String.mk (selPat ++ ['*'] ++ fromPat ++ " \"T\"".data),
            params := [Value.vInt 7] }
          = some (Value.vInt 5) := by
  have h := claim_C3 ['*'] " \"T\"".data [Value.vInt 7] (by decide) (by decide)
  refine ⟨h.1, ?_⟩
  have h2 := h.2 (fun _ _ => [[("count", Value.vInt 5)]]) [("count", Value.vInt 5)] [] rfl
  exact h2.trans (by decide)

end DataPantry
